import Mathlib

/-!
Verification of the XPayr dispatch-planning and bridge-execution pipeline.

The definitions below are a shallow embedding of the repository code:

* `XPayr.Alloc` embeds the allocation engine
  `GenericUSDCAnalyzer.lzReduce` (smartcontract, Solidity).  All amounts
  are uint256 in the source; Solidity 0.8 reverts on overflow rather than
  wrapping, so `Nat` models every non-reverting execution faithfully.
* `XPayr.Circle` embeds `CircleService` (getQuote, estimateGas,
  simulateBridge, bridge, waitForAttestation) and the separate
  `CircleWalletService.fetchAttestation` polling loop.
* `XPayr.Integrated` embeds `IntegratedXPayrService.simulateDispatch`
  and `IntegratedXPayrService.executeDispatch`.

Network and chain interactions are modelled by explicit environments
(records of phase outcomes, and `Nat -> response` functions for the
attestation polling endpoints); on-chain submissions are tracked in an
explicit effect trace.
-/

namespace XPayr
namespace Alloc

/-- Number of chains whose balance is strictly below their threshold
(the loop in lzReduce that increments underThresholdCount). -/
def underCount (bs ts : List Nat) : Nat :=
  ((bs.zip ts).filter (fun p => decide (p.1 < p.2))).length

/-- Per-chain deficits: minThreshold - balance when below threshold, else 0.
This is the array the sufficient-funds branch of lzReduce assigns first. -/
def fillDeficits (bs ts : List Nat) : List Nat :=
  (bs.zip ts).map (fun p => if p.1 < p.2 then p.2 - p.1 else 0)

/-- totalDeficit as accumulated by the decode loop of lzReduce. -/
def totalDeficit (bs ts : List Nat) : Nat :=
  (fillDeficits bs ts).sum

/-- Equal distribution with remainder to the lowest indices
(amountPerChain = a / n, first a % n chains get one extra unit). -/
def equalSplit (n a : Nat) : List Nat :=
  (List.range n).map (fun i => a / n + if i < a % n then 1 else 0)

/-- Proportional allocation of the insufficient-funds branch:
plan[i] = usdcAmount * deficit[i] / totalDeficit for deficient chains, 0 otherwise. -/
def propShare (a d : Nat) (bs ts : List Nat) : List Nat :=
  (bs.zip ts).map (fun p => if p.1 < p.2 then a * (p.2 - p.1) / d else 0)

/-- The remainder loop of the insufficient-funds branch:
for (i = 0; i < n and remainder > 0; i++) if (plan[i] > 0) plan[i] += 1, remainder -= 1.
A single pass in index order, one unit per positive entry, stopping when the
remainder hits zero or the array ends. -/
def distributeRemainder : Nat → List Nat → List Nat
  | _, [] => []
  | 0, xs => xs
  | r + 1, x :: xs =>
    if 0 < x then (x + 1) :: distributeRemainder r xs
    else x :: distributeRemainder (r + 1) xs

/-- Shallow embedding of GenericUSDCAnalyzer.lzReduce (the allocation engine).
Inputs are the decoded balances, thresholds and the usdcAmount metadata. -/
def lzReduce (bs ts : List Nat) (usdcAmount : Nat) : List Nat :=
  let n := bs.length
  let uc := underCount bs ts
  let d := totalDeficit bs ts
  if uc = 0 then
    equalSplit n usdcAmount
  else if uc = 1 then
    (bs.zip ts).map (fun p => if p.1 < p.2 then usdcAmount else 0)
  else if d ≤ usdcAmount then
    let plan := fillDeficits bs ts
    let remaining := usdcAmount - d
    if 0 < remaining then
      List.zipWith (fun x y => x + y) plan (equalSplit n remaining)
    else plan
  else
    let plan := propShare usdcAmount d bs ts
    distributeRemainder (usdcAmount - plan.sum) plan

/-- Number of positive entries among the first i entries of xs, i.e. the
rank of index i in a left-to-right scan over positive entries. -/
def posBefore (xs : List Nat) (i : Nat) : Nat :=
  ((xs.take i).filter (fun x => decide (0 < x))).length

/-- Modelled from the spec (amended): the insufficient-funds remainder rule
as a closed-form description.  Entry i keeps its proportional share and gains
one extra unit exactly when the share is positive and fewer than r positive
shares precede it, i.e. a single pass in index order that hands one unit to
each positive entry until r units are gone or the array ends. -/
def singlePassPlan (xs : List Nat) (r : Nat) : List Nat :=
  (List.range xs.length).map
    (fun i => xs.getD i 0 + if 0 < xs.getD i 0 ∧ posBefore xs i < r then 1 else 0)

end Alloc
end XPayr

namespace XPayr
namespace Alloc

lemma sum_range_base_ite (n q r : Nat) :
    ((List.range n).map (fun i => q + if i < r then 1 else 0)).sum = n * q + min r n := by
  induction n with
  | zero => simp
  | succ n ih =>
    rw [List.range_succ, List.map_append, List.sum_append, ih]
    by_cases hnr : n < r <;> simp [hnr, Nat.succ_mul] <;> omega

lemma sum_equalSplit (n a : Nat) (h : 0 < n) : (equalSplit n a).sum = a := by
  unfold equalSplit
  rw [sum_range_base_ite]
  have hmod : a % n < n := Nat.mod_lt _ h
  have := Nat.div_add_mod a n
  omega

lemma length_equalSplit (n a : Nat) : (equalSplit n a).length = n := by
  simp [equalSplit]

lemma sum_map_ite_const (l : List (Nat × Nat)) (a : Nat) :
    (l.map (fun p => if p.1 < p.2 then a else 0)).sum
      = a * (l.filter (fun p => decide (p.1 < p.2))).length := by
  induction l with
  | nil => simp
  | cons p l ih =>
    by_cases hp : p.1 < p.2 <;>
      simp [List.filter_cons, hp, ih, Nat.mul_succ] <;> omega

lemma div_add_div_le (a b c : Nat) : a / c + b / c ≤ (a + b) / c := by
  rcases Nat.eq_zero_or_pos c with hc | hc
  · subst hc; simp
  · rw [Nat.le_div_iff_mul_le hc, Nat.add_mul]
    exact Nat.add_le_add (Nat.div_mul_le_self a c) (Nat.div_mul_le_self b c)

lemma sum_map_prop_le (a d : Nat) (l : List (Nat × Nat)) :
    (l.map (fun p => if p.1 < p.2 then a * (p.2 - p.1) / d else 0)).sum
      ≤ a * (l.map (fun p => if p.1 < p.2 then p.2 - p.1 else 0)).sum / d := by
  induction l with
  | nil => simp
  | cons p l ih =>
    by_cases hp : p.1 < p.2
    · simp only [List.map_cons, List.sum_cons, if_pos hp]
      calc a * (p.2 - p.1) / d
            + (l.map (fun p => if p.1 < p.2 then a * (p.2 - p.1) / d else 0)).sum
          ≤ a * (p.2 - p.1) / d
            + a * (l.map (fun p => if p.1 < p.2 then p.2 - p.1 else 0)).sum / d :=
            Nat.add_le_add_left ih _
        _ ≤ (a * (p.2 - p.1)
              + a * (l.map (fun p => if p.1 < p.2 then p.2 - p.1 else 0)).sum) / d :=
            div_add_div_le _ _ _
        _ = a * ((p.2 - p.1)
              + (l.map (fun p => if p.1 < p.2 then p.2 - p.1 else 0)).sum) / d := by
            rw [Nat.mul_add]
    · simpa [if_neg hp] using ih

lemma sum_propShare_le (bs ts : List Nat) (a : Nat)
    (hd : 0 < totalDeficit bs ts) :
    (propShare a (totalDeficit bs ts) bs ts).sum ≤ a := by
  have h := sum_map_prop_le a (totalDeficit bs ts) (bs.zip ts)
  have h2 : (propShare a (totalDeficit bs ts) bs ts).sum
      ≤ a * totalDeficit bs ts / totalDeficit bs ts := h
  rwa [Nat.mul_div_cancel a hd] at h2

lemma sum_distributeRemainder (xs : List Nat) (r : Nat) :
    (distributeRemainder r xs).sum
      = xs.sum + min r ((xs.filter (fun x => decide (0 < x))).length) := by
  induction xs generalizing r with
  | nil => cases r <;> simp [distributeRemainder]
  | cons x xs ih =>
    cases r with
    | zero => simp [distributeRemainder]
    | succ r =>
      by_cases hx : 0 < x <;>
        simp [distributeRemainder, hx, ih, List.filter_cons] <;> omega

end Alloc
end XPayr

namespace XPayr
namespace Alloc

lemma length_fillDeficits (bs ts : List Nat) (hlen : ts.length = bs.length) :
    (fillDeficits bs ts).length = bs.length := by
  simp [fillDeficits, List.length_zip, hlen]

lemma sum_zipWith_add (xs ys : List Nat) (h : xs.length = ys.length) :
    (List.zipWith (fun x y => x + y) xs ys).sum = xs.sum + ys.sum := by
  induction xs generalizing ys with
  | nil => cases ys <;> simp at h ⊢
  | cons x xs ih =>
    cases ys with
    | nil => simp at h
    | cons y ys =>
      simp only [List.zipWith_cons_cons, List.sum_cons, ih ys (by simpa using h)]
      omega

lemma lzReduce_sum_le (bs ts : List Nat) (a : Nat)
    (hlen : ts.length = bs.length) (hn : 0 < bs.length) :
    (lzReduce bs ts a).sum ≤ a
    ∧ ((underCount bs ts ≤ 1 ∨ totalDeficit bs ts ≤ a) → (lzReduce bs ts a).sum = a) := by
  by_cases h0 : underCount bs ts = 0
  · have hsum : (lzReduce bs ts a).sum = a := by
      simp only [lzReduce]
      rw [if_pos h0, sum_equalSplit _ _ hn]
    exact ⟨hsum.le, fun _ => hsum⟩
  · by_cases h1 : underCount bs ts = 1
    · have hsum : (lzReduce bs ts a).sum = a := by
        simp only [lzReduce]
        rw [if_neg h0, if_pos h1, sum_map_ite_const]
        have : ((bs.zip ts).filter (fun p => decide (p.1 < p.2))).length = 1 := h1
        rw [this, Nat.mul_one]
      exact ⟨hsum.le, fun _ => hsum⟩
    · by_cases hd : totalDeficit bs ts ≤ a
      · have hsum : (lzReduce bs ts a).sum = a := by
          simp only [lzReduce]
          rw [if_neg h0, if_neg h1, if_pos hd]
          by_cases hr : 0 < a - totalDeficit bs ts
          · rw [if_pos hr]
            rw [sum_zipWith_add _ _ (by
              rw [length_fillDeficits bs ts hlen, length_equalSplit])]
            have heq : (fillDeficits bs ts).sum = totalDeficit bs ts := rfl
            rw [heq, sum_equalSplit _ _ hn]
            omega
          · rw [if_neg hr]
            have heq : (fillDeficits bs ts).sum = totalDeficit bs ts := rfl
            rw [heq]
            omega
        exact ⟨hsum.le, fun _ => hsum⟩
      · constructor
        · simp only [lzReduce]
          rw [if_neg h0, if_neg h1, if_neg hd]
          rw [sum_distributeRemainder]
          have hpos : 0 < totalDeficit bs ts := by omega
          have hle := sum_propShare_le bs ts a hpos
          omega
        · intro h
          rcases h with h | h
          · omega
          · exact absurd h hd

end Alloc
end XPayr

namespace XPayr
namespace Alloc

lemma posBefore_zero (xs : List Nat) : posBefore xs 0 = 0 := by
  simp [posBefore]

lemma posBefore_cons (x : Nat) (xs : List Nat) (i : Nat) :
    posBefore (x :: xs) (i + 1) = (if 0 < x then 1 else 0) + posBefore xs i := by
  unfold posBefore
  rw [List.take_succ_cons, List.filter_cons]
  by_cases hx : 0 < x <;> simp [hx, Nat.add_comm]

lemma map_getD_range (xs : List Nat) :
    (List.range xs.length).map (fun i => xs.getD i 0) = xs := by
  induction xs with
  | nil => simp
  | cons x xs ih =>
    rw [List.length_cons, List.range_succ_eq_map, List.map_cons, List.map_map]
    have h2 : List.map ((fun i => (x :: xs).getD i 0) ∘ Nat.succ) (List.range xs.length)
        = List.map (fun i => xs.getD i 0) (List.range xs.length) :=
      List.map_congr_left (fun i _ => by simp)
    simp only [List.getD_cons_zero]
    rw [h2, ih]

lemma one_add_lt_succ_iff (p r : Nat) : 1 + p < r + 1 ↔ p < r := by omega

lemma distributeRemainder_eq_singlePass (xs : List Nat) (r : Nat) :
    distributeRemainder r xs = singlePassPlan xs r := by
  induction xs generalizing r with
  | nil => cases r <;> simp [distributeRemainder, singlePassPlan]
  | cons x xs ih =>
    cases r with
    | zero =>
      have h := map_getD_range (x :: xs)
      simp only [distributeRemainder, singlePassPlan, Nat.not_lt_zero, and_false,
        if_false, add_zero]
      exact h.symm
    | succ r =>
      by_cases hx : 0 < x
      · simp only [distributeRemainder, if_pos hx]
        rw [ih r]
        simp only [singlePassPlan, List.length_cons, List.range_succ_eq_map,
          List.map_cons, List.map_map, List.getD_cons_zero, posBefore_zero,
          hx, true_and, Nat.succ_pos, if_pos, if_true]
        congr 1
        apply List.map_congr_left
        intro i _
        simp only [Function.comp_apply, List.getD_cons_succ, posBefore_cons,
          if_pos hx, one_add_lt_succ_iff]
      · simp only [distributeRemainder, if_neg hx]
        rw [ih (r + 1)]
        simp only [singlePassPlan, List.length_cons, List.range_succ_eq_map,
          List.map_cons, List.map_map, List.getD_cons_zero, posBefore_zero,
          hx, false_and, if_false, add_zero]
        congr 1
        apply List.map_congr_left
        intro i _
        simp only [Function.comp_apply, List.getD_cons_succ, posBefore_cons,
          if_neg hx, Nat.zero_add]

end Alloc
end XPayr

namespace XPayr
namespace Alloc

lemma getD_map_zip (bs ts : List Nat) (f : Nat × Nat → Nat) (i : Nat)
    (h1 : i < bs.length) (h2 : i < ts.length) :
    ((bs.zip ts).map f).getD i 0 = f (bs.getD i 0, ts.getD i 0) := by
  have hz : i < (bs.zip ts).length := by
    rw [List.length_zip]; omega
  rw [List.getD_eq_getElem _ _ (by simpa using hz)]
  rw [List.getElem_map, List.getElem_zip]
  rw [List.getD_eq_getElem _ _ h1, List.getD_eq_getElem _ _ h2]

lemma getD_range_map (n : Nat) (f : Nat → Nat) (i : Nat) (h : i < n) :
    ((List.range n).map f).getD i 0 = f i := by
  rw [List.getD_eq_getElem _ _ (by simpa using h)]
  rw [List.getElem_map]
  congr 1
  exact List.getElem_range _ _

end Alloc
end XPayr

namespace XPayr
namespace Alloc

/-- C1 (counterexample): the conservation claim fails as stated.  On the valid
input balances [0,0,0], thresholds [1,1,4], totalAmount 5 (three deficits
1+1+4 = 6 > 5, the insufficient-funds branch), the proportional floors are
[0,0,3] and the single remainder pass can only top up the one positive entry,
leaving plan [0,0,4] whose sum is 4, not 5. -/
theorem C1_conservation_counterexample :
    ([(0:Nat),0,0].length = [(1:Nat),1,4].length ∧ 0 < [(0:Nat),0,0].length)
    ∧ lzReduce [0,0,0] [1,1,4] 5 = [0,0,4]
    ∧ ¬ (lzReduce [0,0,0] [1,1,4] 5).sum = 5 := by decide

/-- C1 (amended): for every valid input (equal lengths, n at least 1), the
dispatch plan of lzReduce satisfies sum(plan) less-or-equal totalAmount, and
sum(plan) = totalAmount exactly in the no-deficit, single-deficit and
sufficient-funds branches (that is, whenever underCount is at most 1 or
totalAmount covers the total deficit); only the insufficient-funds branch can
lose units to the bounded remainder pass. -/
theorem C1_conservation_amended (bs ts : List Nat) (a : Nat)
    (hlen : ts.length = bs.length) (hn : 0 < bs.length) :
    (lzReduce bs ts a).sum ≤ a
    ∧ ((underCount bs ts ≤ 1 ∨ totalDeficit bs ts ≤ a) → (lzReduce bs ts a).sum = a) :=
  lzReduce_sum_le bs ts a hlen hn

theorem C1_conservation_amended_witness :
    (lzReduce [500,200] [1000,500] 1000).sum ≤ 1000
    ∧ ((underCount [500,200] [1000,500] ≤ 1 ∨ totalDeficit [500,200] [1000,500] ≤ 1000)
        → (lzReduce [500,200] [1000,500] 1000).sum = 1000) :=
  C1_conservation_amended [500,200] [1000,500] 1000 (by decide) (by decide)

/-- C2 (counterexample): the claim that the leftover is distributed until
fully exhausted fails.  On balances [0,0,0], thresholds [1,1,6],
totalAmount 7 (insufficient branch, total deficit 8), the proportional floors
are [0,0,5], the leftover is 2, but the single pass finds only one positive
entry, producing [0,0,6]: one leftover unit is never distributed. -/
theorem C2_insufficient_counterexample :
    (1 < underCount [0,0,0] [1,1,6] ∧ 7 < totalDeficit [0,0,0] [1,1,6])
    ∧ lzReduce [0,0,0] [1,1,6] 7 = [0,0,6]
    ∧ ¬ (lzReduce [0,0,0] [1,1,6] 7).sum = 7 := by decide

/-- C2 (amended): in the insufficient-funds branch (more than one deficit and
totalAmount below the total deficit), the plan equals the proportional floors
plan[i] = totalAmount * deficit[i] / totalDeficit, plus one extra unit for
each chain with a positive share among the first leftover-many such chains in
index order: a single pass that stops at the end of the array even if
leftover remains.  The leftover is fully exhausted (sum(plan) = totalAmount)
if and only if the number of chains with a positive proportional share is at
least the leftover. -/
theorem C2_insufficient_amended (bs ts : List Nat) (a : Nat)
    (huc : 1 < underCount bs ts) (hins : a < totalDeficit bs ts) :
    lzReduce bs ts a
      = singlePassPlan (propShare a (totalDeficit bs ts) bs ts)
          (a - (propShare a (totalDeficit bs ts) bs ts).sum)
    ∧ ((lzReduce bs ts a).sum = a ↔
        a - (propShare a (totalDeficit bs ts) bs ts).sum
          ≤ ((propShare a (totalDeficit bs ts) bs ts).filter
              (fun x => decide (0 < x))).length) := by
  have h0 : ¬ underCount bs ts = 0 := by omega
  have h1 : ¬ underCount bs ts = 1 := by omega
  have hd : ¬ totalDeficit bs ts ≤ a := by omega
  have hred : lzReduce bs ts a
      = distributeRemainder (a - (propShare a (totalDeficit bs ts) bs ts).sum)
          (propShare a (totalDeficit bs ts) bs ts) := by
    simp only [lzReduce]
    rw [if_neg h0, if_neg h1, if_neg hd]
  constructor
  · rw [hred]
    exact distributeRemainder_eq_singlePass _ _
  · rw [hred, sum_distributeRemainder]
    have hpos : 0 < totalDeficit bs ts := by omega
    have hle := sum_propShare_le bs ts a hpos
    omega

theorem C2_insufficient_amended_witness :
    (1 < underCount [100,200] [1000,500] ∧ 500 < totalDeficit [100,200] [1000,500])
    ∧ (lzReduce [100,200] [1000,500] 500
        = singlePassPlan (propShare 500 (totalDeficit [100,200] [1000,500]) [100,200] [1000,500])
            (500 - (propShare 500 (totalDeficit [100,200] [1000,500]) [100,200] [1000,500]).sum)
      ∧ ((lzReduce [100,200] [1000,500] 500).sum = 500 ↔
          500 - (propShare 500 (totalDeficit [100,200] [1000,500]) [100,200] [1000,500]).sum
            ≤ ((propShare 500 (totalDeficit [100,200] [1000,500]) [100,200] [1000,500]).filter
                (fun x => decide (0 < x))).length)) :=
  ⟨by decide, C2_insufficient_amended [100,200] [1000,500] 500 (by decide) (by decide)⟩

/-- C3: single-deficit routing.  When exactly one chain is below its
threshold (underCount = 1), the plan entry of every index i is the whole
totalAmount when chain i is the deficient one and 0 otherwise. -/
theorem C3_single_deficit_routing (bs ts : List Nat) (a i : Nat)
    (hlen : ts.length = bs.length) (h1 : underCount bs ts = 1) (hi : i < bs.length) :
    (lzReduce bs ts a).getD i 0
      = if bs.getD i 0 < ts.getD i 0 then a else 0 := by
  have h0 : ¬ underCount bs ts = 0 := by omega
  have hred : lzReduce bs ts a
      = (bs.zip ts).map (fun p => if p.1 < p.2 then a else 0) := by
    simp only [lzReduce]
    rw [if_neg h0, if_pos h1]
  rw [hred, getD_map_zip bs ts _ i hi (by omega)]

theorem C3_single_deficit_routing_witness :
    (lzReduce [500,2000] [1000,1000] 1000).getD 0 0 = 1000
    ∧ (lzReduce [500,2000] [1000,1000] 1000).getD 1 0 = 0 := by
  have ha := C3_single_deficit_routing [500,2000] [1000,1000] 1000 0
    (by decide) (by decide) (by decide)
  have hb := C3_single_deficit_routing [500,2000] [1000,1000] 1000 1
    (by decide) (by decide) (by decide)
  exact ⟨by simpa using ha, by simpa using hb⟩

/-- C4: no-deficit equal split.  When no chain is below its threshold
(underCount = 0), every index i receives totalAmount / n, with one extra unit
for the first totalAmount mod n indices. -/
theorem C4_no_deficit_equal_split (bs ts : List Nat) (a i : Nat)
    (hlen : ts.length = bs.length) (h0 : underCount bs ts = 0) (hi : i < bs.length) :
    (lzReduce bs ts a).getD i 0
      = a / bs.length + if i < a % bs.length then 1 else 0 := by
  have hred : lzReduce bs ts a = equalSplit bs.length a := by
    simp only [lzReduce]
    rw [if_pos h0]
  rw [hred]
  unfold equalSplit
  exact getD_range_map bs.length _ i hi

theorem C4_no_deficit_equal_split_witness :
    (lzReduce [1500,2000,1100] [1000,1000,1000] 10).getD 0 0 = 4
    ∧ (lzReduce [1500,2000,1100] [1000,1000,1000] 10).getD 1 0 = 3 := by
  have ha := C4_no_deficit_equal_split [1500,2000,1100] [1000,1000,1000] 10 0
    (by decide) (by decide) (by decide)
  have hb := C4_no_deficit_equal_split [1500,2000,1100] [1000,1000,1000] 10 1
    (by decide) (by decide) (by decide)
  exact ⟨by simpa using ha, by simpa using hb⟩

end Alloc
end XPayr

namespace XPayr
namespace Circle

/-- Chains supported by the CCTP constants module (constants/cctp). -/
inductive CCTPChain
  | ETH
  | BASE
  | ARB
  | POLYGON
deriving DecidableEq

/-- CHAIN_TO_CHAIN_ID from constants/cctp (testnet defaults).  Total on the
enum and never zero, so the unsupported-chain guard in CircleService never
fires for well-typed requests. -/
def CHAIN_TO_CHAIN_ID : CCTPChain → Nat
  | CCTPChain.ETH => 11155111
  | CCTPChain.BASE => 84532
  | CCTPChain.ARB => 421614
  | CCTPChain.POLYGON => 80001

/-- CCTPBridgeStatus from types/cctp. -/
inductive CCTPBridgeStatus
  | PENDING
  | CONFIRMING
  | ATTESTING
  | READY_TO_MINT
  | COMPLETED
  | FAILED
  | EXPIRED
deriving DecidableEq

/-- The Required CCTPServiceConfig assembled by the CircleService
constructor. -/
structure CCTPServiceConfig where
  retryAttempts : Nat
  retryDelayMs : Nat
  timeoutMs : Nat
  defaultGasLimit : Nat
deriving DecidableEq

/-- Defaults applied by the CircleService constructor
(retryAttempts 5, retryDelayMs 15000, timeoutMs 600000, defaultGasLimit
200000); IntegratedXPayrService passes exactly the same values. -/
def defaultServiceConfig : CCTPServiceConfig :=
  ⟨5, 15000, 600000, 200000⟩

/-- One response of the attestation status endpoint as observed by
CircleService.waitForAttestation: the decoded status pending, complete or
failed, or a request error thrown by the HTTP client (404, network). -/
inductive PollResponse
  | pending
  | complete (attestation : String)
  | failed
  | httpError (msg : String)
deriving DecidableEq

/-- The while loop of CircleService.waitForAttestation.  The environment maps
the poll index (the value of attempts at request time) to the response.
The fuel argument equals maxAttempts - attempts and makes the recursion
structural.  Returns the result together with the number of polls performed.
A failed status raises inside the try block, so it is handled by the catch:
the loop retries unless this was the last attempt, exactly as for a request
error.  The two error strings abbreviate the messages built in the source
(the timeout message and the wrapped last-attempt message). -/
def waitLoop (env : Nat → PollResponse) (maxAttempts : Nat) :
    Nat → Nat → Except String String × Nat
  | attempts, 0 => (Except.error "Attestation timeout", attempts)
  | attempts, fuel + 1 =>
    match env attempts with
    | PollResponse.complete att => (Except.ok att, attempts + 1)
    | PollResponse.pending => waitLoop env maxAttempts (attempts + 1) fuel
    | PollResponse.failed =>
      if attempts = maxAttempts - 1 then
        (Except.error "Failed to get attestation", attempts + 1)
      else
        waitLoop env maxAttempts (attempts + 1) fuel
    | PollResponse.httpError _ =>
      if attempts = maxAttempts - 1 then
        (Except.error "Failed to get attestation", attempts + 1)
      else
        waitLoop env maxAttempts (attempts + 1) fuel

/-- CircleService.waitForAttestation: poll until complete, last-attempt
error, or the attempt budget maxAttempts (config.retryAttempts) runs out. -/
def waitForAttestation (env : Nat → PollResponse) (maxAttempts : Nat) :
    Except String String × Nat :=
  waitLoop env maxAttempts 0 maxAttempts

/-- One response of the Iris attestation endpoint as observed by
CircleWalletService.fetchAttestation (services/circle-wallet): status
complete, status pending_confirmations (wait 10 s and continue), any other
status (falls through both if statements and loops immediately), a 404
(wait 10 s and continue), or another request error (rethrown). -/
inductive IrisResponse
  | complete (att : String)
  | pendingConfirmations
  | otherStatus
  | notFound
  | httpError (msg : String)
deriving DecidableEq

/-- The for loop of CircleWalletService.fetchAttestation, fuel =
maxAttempts - attempt.  Returns the result with the number of polls. -/
def fetchAttestationLoop (env : Nat → IrisResponse) :
    Nat → Nat → Except String String × Nat
  | attempt, 0 => (Except.error "Attestation timeout for message hash", attempt)
  | attempt, fuel + 1 =>
    match env attempt with
    | IrisResponse.complete att => (Except.ok att, attempt + 1)
    | IrisResponse.pendingConfirmations => fetchAttestationLoop env (attempt + 1) fuel
    | IrisResponse.otherStatus => fetchAttestationLoop env (attempt + 1) fuel
    | IrisResponse.notFound => fetchAttestationLoop env (attempt + 1) fuel
    | IrisResponse.httpError m => (Except.error m, attempt + 1)

/-- CircleWalletService.fetchAttestation with its default maxAttempts = 60
and a fixed 10 second wait between polls. -/
def fetchAttestation (env : Nat → IrisResponse) (maxAttempts : Nat) :
    Except String String × Nat :=
  fetchAttestationLoop env 0 maxAttempts

end Circle
end XPayr

namespace XPayr
namespace Circle

/-- Fee figures of a quote or bridge result, in wei (the source formats them
as decimal strings with formatEther; the numeric value is what matters). -/
structure CCTPFees where
  gasFee : Nat
  bridgeFee : Nat
  totalFee : Nat
deriving DecidableEq

/-- On-chain interactions performed by CircleService, recorded as an explicit
trace: a read of current fee data (provider.getFeeData in estimateGas) and
the two transaction submissions (the USDC approval and depositForBurn).
Attestation polling is an HTTP read and is not a chain submission. -/
inductive Effect
  | readFeeData (chain : CCTPChain)
  | submitApprove (chain : CCTPChain) (amount : Nat)
  | submitBurn (chain : CCTPChain) (amount : Nat)
deriving DecidableEq

/-- Whether an effect submits an on-chain transaction. -/
def Effect.isSubmit : Effect → Bool
  | Effect.readFeeData _ => false
  | Effect.submitApprove _ _ => true
  | Effect.submitBurn _ _ => true

/-- Result of a confirmed depositForBurn: transaction hash, the keccak hash
of the emitted MessageSent payload (messageId) and the gas cost. -/
structure BurnResult where
  transactionHash : String
  messageId : String
  gasCost : Nat
deriving DecidableEq

/-- Environment for one CircleService.bridge run: the outcome of each
external interaction.  feeData is the gas price returned by
provider.getFeeData (none when the fetch fails and estimateGas falls back to
its static default); approve and burn are the outcomes of the two submitted
transactions (an error models a throw anywhere in that step, including a
missing MessageSent event); attestation maps poll indices to endpoint
responses. -/
structure BridgeEnv where
  feeData : Option Nat
  approve : Except String Unit
  burn : Except String BurnResult
  attestation : Nat → PollResponse

/-- CCTPQuoteRequest. -/
structure CCTPQuoteRequest where
  fromChain : CCTPChain
  toChain : CCTPChain
  amount : Nat
  recipient : String
deriving DecidableEq

/-- CCTPQuoteResponse restricted to the fields the pipeline consumes.
minimumAmountUnits and maximumAmountUnits are the 0.000001 and 1000000 USDC
limits of the source expressed in 6-decimal base units. -/
structure CCTPQuoteResponse where
  fromChain : CCTPChain
  toChain : CCTPChain
  amount : Nat
  fees : CCTPFees
  estimatedTime : Nat
  minimumAmountUnits : Nat
  maximumAmountUnits : Nat
deriving DecidableEq

/-- CCTPBridgeRequest.  Amounts are 6-decimal base units (the source passes
decimal strings through formatUnits and parseUnits, an identity on the
underlying integer). -/
structure CCTPBridgeRequest where
  fromChain : CCTPChain
  toChain : CCTPChain
  amount : Nat
  recipientAddress : String
  senderPrivateKey : String
  dryRun : Bool
deriving DecidableEq

/-- CCTPBridgeResponse. -/
structure CCTPBridgeResponse where
  success : Bool
  status : CCTPBridgeStatus
  transactionHash : Option String
  messageId : Option String
  attestationHash : Option String
  error : Option String
  message : Option String
  estimatedTime : Option Nat
  fees : Option CCTPFees
deriving DecidableEq

/-- CircleService.estimateGas: read the current gas price and multiply by the
configured default gas limit; on a failed fetch fall back to the static
0.01 ether estimate.  Returns the fees, the estimated time (always 300
seconds) and the effect trace.  The read is attempted in both cases. -/
def estimateGas (cfg : CCTPServiceConfig) (env : BridgeEnv) (c : CCTPChain) :
    CCTPFees × Nat × List Effect :=
  match env.feeData with
  | some gasPrice =>
    (⟨gasPrice * cfg.defaultGasLimit, 0, gasPrice * cfg.defaultGasLimit⟩, 300,
      [Effect.readFeeData c])
  | none =>
    (⟨10000000000000000, 0, 10000000000000000⟩, 300, [Effect.readFeeData c])

/-- CircleService.getQuote.  estimateGas never throws (it catches and falls
back), and the chain lookups are total on the enum, so the quote always
succeeds for well-typed requests; the catch branch of the source is
unreachable in the model. -/
def getQuote (cfg : CCTPServiceConfig) (env : BridgeEnv) (q : CCTPQuoteRequest) :
    CCTPQuoteResponse × List Effect :=
  let g := estimateGas cfg env q.fromChain
  (⟨q.fromChain, q.toChain, q.amount, g.1, g.2.1, 1, 1000000000000⟩, g.2.2)

/-- CircleService.simulateBridge: quote the fees and report a successful
simulated bridge; no transaction is submitted. -/
def simulateBridge (cfg : CCTPServiceConfig) (env : BridgeEnv)
    (req : CCTPBridgeRequest) : CCTPBridgeResponse × List Effect :=
  let q := getQuote cfg env ⟨req.fromChain, req.toChain, req.amount, req.recipientAddress⟩
  (⟨true, CCTPBridgeStatus.COMPLETED, none, none, none, none,
      some "Simulation completed successfully", some q.1.estimatedTime, some q.1.fees⟩,
    q.2)

/-- The failure response produced by the catch block of CircleService.bridge. -/
def failedResponse (msg : String) : CCTPBridgeResponse :=
  ⟨false, CCTPBridgeStatus.FAILED, none, none, none, some msg, none, none, none⟩

/-- Shallow embedding of CircleService.bridge: dry runs delegate to
simulateBridge before the private-key check; real runs require a sender key,
then run approve, depositForBurn and waitForAttestation in sequence.  Any
phase error is converted by the enclosing catch into a failure response.
The submission effects record that the corresponding transaction was
attempted. -/
def bridge (cfg : CCTPServiceConfig) (env : BridgeEnv) (req : CCTPBridgeRequest) :
    CCTPBridgeResponse × List Effect :=
  if req.dryRun then
    simulateBridge cfg env req
  else if req.senderPrivateKey = "" then
    (failedResponse "Sender private key is required for bridge execution", [])
  else
    match env.approve with
    | Except.error m => (failedResponse m, [Effect.submitApprove req.fromChain req.amount])
    | Except.ok _ =>
      match env.burn with
      | Except.error m =>
        (failedResponse m,
          [Effect.submitApprove req.fromChain req.amount,
            Effect.submitBurn req.fromChain req.amount])
      | Except.ok br =>
        match waitForAttestation env.attestation cfg.retryAttempts with
        | (Except.error m, _) =>
          (failedResponse m,
            [Effect.submitApprove req.fromChain req.amount,
              Effect.submitBurn req.fromChain req.amount])
        | (Except.ok att, _) =>
          (⟨true, CCTPBridgeStatus.COMPLETED, some br.transactionHash,
              some br.messageId, some att, none, none, some 300,
              some ⟨br.gasCost, 0, br.gasCost⟩⟩,
            [Effect.submitApprove req.fromChain req.amount,
              Effect.submitBurn req.fromChain req.amount])

end Circle
end XPayr

namespace XPayr
namespace Circle

/-- An attestation endpoint that answers pending five times, then complete. -/
def pendingFiveThenComplete : Nat → PollResponse :=
  fun k => if k < 5 then PollResponse.pending else PollResponse.complete "sig"

/-- The Iris endpoint of the same scenario for fetchAttestation:
pending_confirmations five times, then complete. -/
def irisPendingFiveThenComplete : Nat → IrisResponse :=
  fun k => if k < 5 then IrisResponse.pendingConfirmations else IrisResponse.complete "sig"

/-- A bridge environment in which every phase succeeds and the attestation
endpoint behaves as pendingFiveThenComplete. -/
def scenarioBridgeEnv : BridgeEnv :=
  ⟨some 1, Except.ok (), Except.ok ⟨"0xtx", "0xmsg", 100⟩, pendingFiveThenComplete⟩

/-- A concrete non-dry bridge request. -/
def scenarioBridgeRequest : CCTPBridgeRequest :=
  ⟨CCTPChain.ETH, CCTPChain.BASE, 1000000, "0xrecipient", "0xkey", false⟩

/-- C5: evaluation at the failing input.  A failed attestation status is not
terminal: with the default budget of 5 attempts and an endpoint constantly
answering failed, the waiter polls all 5 times before erroring (first
conjunct), and a failed answer followed by complete even yields success on
the second poll (second conjunct) — because the throw on a failed status
lands in the same catch that retries transient request errors. -/
theorem C5_attestation_failed_not_terminal :
    waitForAttestation (fun _ => PollResponse.failed) 5
      = (Except.error "Failed to get attestation", 5)
    ∧ waitForAttestation
        (fun k => if k = 0 then PollResponse.failed else PollResponse.complete "sig") 5
      = (Except.ok "sig", 2) := by
  exact ⟨rfl, rfl⟩

/-- C6 (counterexample): under the defaults actually set by the CircleService
constructor the poll interval is 15000 ms (not about 10 s) and the budget is
5 attempts (not about 60); with an endpoint answering pending five times then
complete, the waiter times out after the 5th poll and the bridge reports a
failed, unsuccessful result instead of reaching the completed state on the
6th poll. -/
theorem C6_polling_defaults_counterexample :
    (defaultServiceConfig.retryDelayMs = 15000
      ∧ ¬ defaultServiceConfig.retryDelayMs = 10000)
    ∧ (defaultServiceConfig.retryAttempts = 5
      ∧ ¬ defaultServiceConfig.retryAttempts = 60)
    ∧ waitForAttestation pendingFiveThenComplete defaultServiceConfig.retryAttempts
        = (Except.error "Attestation timeout", 5)
    ∧ (bridge defaultServiceConfig scenarioBridgeEnv scenarioBridgeRequest).1.status
        = CCTPBridgeStatus.FAILED
    ∧ ¬ (bridge defaultServiceConfig scenarioBridgeEnv scenarioBridgeRequest).1.success
        = true := by
  refine ⟨⟨rfl, by decide⟩, ⟨rfl, by decide⟩, rfl, rfl, by decide⟩

/-- C6 (amended): CircleService polls the attestation endpoint at a fixed
15 second interval with at most 5 attempts; with an endpoint answering
pending five times then complete, the wait times out after the 5th poll and
the bridge returns the failed response.  Reaching success on the 6th poll
requires a budget of at least 6 attempts.  The 10 second interval and
60-attempt budget of the claim are those of the separate
CircleWalletService.fetchAttestation, which does return the attestation on
the 6th poll in this scenario under its default budget of 60. -/
theorem C6_polling_defaults_amended :
    defaultServiceConfig.retryDelayMs = 15000
    ∧ defaultServiceConfig.retryAttempts = 5
    ∧ waitForAttestation pendingFiveThenComplete 5
        = (Except.error "Attestation timeout", 5)
    ∧ (bridge defaultServiceConfig scenarioBridgeEnv scenarioBridgeRequest).1
        = failedResponse "Attestation timeout"
    ∧ waitForAttestation pendingFiveThenComplete 6 = (Except.ok "sig", 6)
    ∧ fetchAttestation irisPendingFiveThenComplete 60 = (Except.ok "sig", 6) := by
  exact ⟨rfl, rfl, rfl, rfl, rfl, rfl⟩

end Circle
end XPayr

namespace XPayr
namespace Circle

/-- Every error the attestation waiter can produce is one of the two
non-empty messages built in the source. -/
lemma waitLoop_error_msg (env : Nat → PollResponse) (m0 : Nat) :
    ∀ (fuel attempts : Nat) (m : String) (k : Nat),
      waitLoop env m0 attempts fuel = (Except.error m, k) →
      m = "Attestation timeout" ∨ m = "Failed to get attestation" := by
  intro fuel
  induction fuel with
  | zero =>
    intro attempts m k h
    simp only [waitLoop] at h
    exact Or.inl (by injection h with h1 h2; injection h1 with h1; exact h1.symm)
  | succ fuel ih =>
    intro attempts m k h
    simp only [waitLoop] at h
    cases henv : env attempts with
    | complete att => rw [henv] at h; exact absurd h (by simp)
    | pending => rw [henv] at h; exact ih _ _ _ h
    | failed =>
      rw [henv] at h
      by_cases hlast : attempts = m0 - 1
      · rw [if_pos hlast] at h
        exact Or.inr (by injection h with h1 h2; injection h1 with h1; exact h1.symm)
      · rw [if_neg hlast] at h
        exact ih _ _ _ h
    | httpError msg =>
      rw [henv] at h
      by_cases hlast : attempts = m0 - 1
      · rw [if_pos hlast] at h
        exact Or.inr (by injection h with h1 h2; injection h1 with h1; exact h1.symm)
      · rw [if_neg hlast] at h
        exact ih _ _ _ h

/-- The error strings a bridge environment may produce are non-empty. -/
def BridgeEnv.errorsNonempty (env : BridgeEnv) : Prop :=
  (∀ m, env.approve = Except.error m → ¬ m = "")
  ∧ (∀ m, env.burn = Except.error m → ¬ m = "")

/-- C10: CircleService.bridge is total with respect to errors.  Its catch
block turns every phase failure into a response with success = false, status
FAILED and a non-empty error message (assuming the environment does not
throw empty-message errors; every message built by the source itself is a
non-empty literal), and success = true arises only from a dry-run simulation
or a completed approve-burn-attest sequence, with status COMPLETED. -/
theorem C10_bridge_total_error_handling (cfg : CCTPServiceConfig)
    (env : BridgeEnv) (req : CCTPBridgeRequest)
    (h : env.errorsNonempty) :
    ((bridge cfg env req).1.success = false →
      (bridge cfg env req).1.status = CCTPBridgeStatus.FAILED
      ∧ ∃ m, (bridge cfg env req).1.error = some m ∧ ¬ m = "")
    ∧ ((bridge cfg env req).1.success = true →
      (bridge cfg env req).1.status = CCTPBridgeStatus.COMPLETED
      ∧ (req.dryRun = true
          ∨ ((∃ u, env.approve = Except.ok u)
              ∧ (∃ br, env.burn = Except.ok br)
              ∧ ∃ att k, waitForAttestation env.attestation cfg.retryAttempts
                  = (Except.ok att, k)))) := by
  by_cases hdry : req.dryRun
  · constructor
    · intro hfail
      exfalso
      revert hfail
      simp [bridge, hdry, simulateBridge, getQuote, estimateGas]
    · intro _
      constructor
      · simp [bridge, hdry, simulateBridge, getQuote, estimateGas]
      · exact Or.inl hdry
  · by_cases hkey : req.senderPrivateKey = ""
    · constructor
      · intro _
        refine ⟨by simp [bridge, hdry, hkey, failedResponse], ?_⟩
        refine ⟨"Sender private key is required for bridge execution", ?_, by decide⟩
        simp [bridge, hdry, hkey, failedResponse]
      · intro hsucc
        exfalso
        revert hsucc
        simp [bridge, hdry, hkey, failedResponse]
    · cases happ : env.approve with
      | error m =>
        constructor
        · intro _
          refine ⟨by simp [bridge, hdry, hkey, happ, failedResponse], ?_⟩
          exact ⟨m, by simp [bridge, hdry, hkey, happ, failedResponse], h.1 m happ⟩
        · intro hsucc
          exfalso
          revert hsucc
          simp [bridge, hdry, hkey, happ, failedResponse]
      | ok u =>
        cases hburn : env.burn with
        | error m =>
          constructor
          · intro _
            refine ⟨by simp [bridge, hdry, hkey, happ, hburn, failedResponse], ?_⟩
            exact ⟨m, by simp [bridge, hdry, hkey, happ, hburn, failedResponse], h.2 m hburn⟩
          · intro hsucc
            exfalso
            revert hsucc
            simp [bridge, hdry, hkey, happ, hburn, failedResponse]
        | ok br =>
          rcases hwait : waitForAttestation env.attestation cfg.retryAttempts with ⟨res, k⟩
          cases res with
          | error m =>
            have hm : ¬ m = "" := by
              rcases waitLoop_error_msg env.attestation cfg.retryAttempts
                cfg.retryAttempts 0 m k hwait with h1 | h1
              · rw [h1]; decide
              · rw [h1]; decide
            constructor
            · intro _
              refine ⟨by simp [bridge, hdry, hkey, happ, hburn, hwait, failedResponse], ?_⟩
              exact ⟨m, by simp [bridge, hdry, hkey, happ, hburn, hwait, failedResponse], hm⟩
            · intro hsucc
              exfalso
              revert hsucc
              simp [bridge, hdry, hkey, happ, hburn, hwait, failedResponse]
          | ok att =>
            constructor
            · intro hfail
              exfalso
              revert hfail
              simp [bridge, hdry, hkey, happ, hburn, hwait]
            · intro _
              refine ⟨by simp [bridge, hdry, hkey, happ, hburn, hwait], ?_⟩
              exact Or.inr ⟨⟨u, rfl⟩, ⟨br, rfl⟩, att, k, rfl⟩

theorem C10_bridge_total_error_handling_witness :
    ((bridge defaultServiceConfig scenarioBridgeEnv scenarioBridgeRequest).1.success = false →
      (bridge defaultServiceConfig scenarioBridgeEnv scenarioBridgeRequest).1.status
          = CCTPBridgeStatus.FAILED
      ∧ ∃ m, (bridge defaultServiceConfig scenarioBridgeEnv scenarioBridgeRequest).1.error
          = some m ∧ ¬ m = "")
    ∧ ((bridge defaultServiceConfig scenarioBridgeEnv scenarioBridgeRequest).1.success = true →
      (bridge defaultServiceConfig scenarioBridgeEnv scenarioBridgeRequest).1.status
          = CCTPBridgeStatus.COMPLETED
      ∧ (scenarioBridgeRequest.dryRun = true
          ∨ ((∃ u, scenarioBridgeEnv.approve = Except.ok u)
              ∧ (∃ br, scenarioBridgeEnv.burn = Except.ok br)
              ∧ ∃ att k, waitForAttestation scenarioBridgeEnv.attestation
                  defaultServiceConfig.retryAttempts = (Except.ok att, k)))) :=
  C10_bridge_total_error_handling defaultServiceConfig scenarioBridgeEnv scenarioBridgeRequest
    ⟨fun _ hm => Except.noConfusion hm, fun _ hm => Except.noConfusion hm⟩

end Circle
end XPayr

namespace XPayr
namespace Integrated

open XPayr.Circle

/-- IntegratedDispatchRequest restricted to the fields the pipeline consumes.
dispatchPlan entries and totalAmount are 6-decimal base units. -/
structure IntegratedDispatchRequest where
  dispatchPlan : List Nat
  chains : List CCTPChain
  recipients : List String
  senderPrivateKey : String
  sourceChain : CCTPChain
  totalAmount : Nat
  dryRun : Bool
deriving DecidableEq

/-- Indices the execution and simulation loops act on: the loop bodies run
exactly for the i with dispatchPlan[i] > 0 (the loops iterate over
chains.length and guard on the plan entry). -/
def positiveIdxs (req : IntegratedDispatchRequest) : List Nat :=
  (List.range req.chains.length).filter
    (fun i => decide (0 < req.dispatchPlan.getD i 0))

/-- The length validation at the top of simulateDispatch. -/
def lengthsOk (req : IntegratedDispatchRequest) : Bool :=
  decide (req.chains.length = req.recipients.length)
    && decide (req.chains.length = req.dispatchPlan.length)

/-- One entry of a DispatchSimulation. -/
structure SimDispatchEntry where
  chain : CCTPChain
  amount : Nat
  recipient : String
  fees : Nat
  estimatedTime : Nat
deriving DecidableEq

/-- DispatchSimulation. -/
structure DispatchSimulation where
  totalAmount : Nat
  totalFees : Nat
  estimatedTime : Nat
  dispatches : List SimDispatchEntry
  feasible : Bool
  warnings : List String
deriving DecidableEq

/-- The quote request simulateDispatch builds for plan entry i. -/
def mkQuoteRequest (req : IntegratedDispatchRequest) (i : Nat) : CCTPQuoteRequest :=
  ⟨req.sourceChain, req.chains.getD i CCTPChain.ETH,
    req.dispatchPlan.getD i 0, req.recipients.getD i ""⟩

/-- The simulation entry and quote effects for plan entry i. -/
def simEntry (cfg : CCTPServiceConfig) (envs : Nat → BridgeEnv)
    (req : IntegratedDispatchRequest) (i : Nat) : SimDispatchEntry × List Effect :=
  let q := getQuote cfg (envs i) (mkQuoteRequest req i)
  (⟨req.chains.getD i CCTPChain.ETH, req.dispatchPlan.getD i 0,
      req.recipients.getD i "", q.1.fees.totalFee, q.1.estimatedTime⟩, q.2)

/-- The per-entry amount checks of simulateDispatch against the quote limits
(minimum 0.000001 USDC = 1 base unit, maximum 1000000 USDC = 10^12 base
units); an entry outside the limits makes the simulation infeasible. -/
def entryWithinLimits (req : IntegratedDispatchRequest) (i : Nat) : Bool :=
  !(decide (req.dispatchPlan.getD i 0 < 1))
    && !(decide (1000000000000 < req.dispatchPlan.getD i 0))

/-- feasible as computed by simulateDispatch.  In the model quotes always
succeed (see getQuote), so only the amount-limit checks can clear it. -/
def dispatchFeasible (req : IntegratedDispatchRequest) : Bool :=
  (positiveIdxs req).all (fun i => entryWithinLimits req i)

/-- IntegratedXPayrService.simulateDispatch: validate lengths (a mismatch
throws), warn when the plan total differs from the expected total, then quote
every positive plan entry and check it against the amount limits. -/
def simulateDispatch (cfg : CCTPServiceConfig) (envs : Nat → BridgeEnv)
    (req : IntegratedDispatchRequest) :
    Except String DispatchSimulation × List Effect :=
  if lengthsOk req = false then
    (Except.error "Mismatched array lengths in dispatch request", [])
  else
    let idxs := positiveIdxs req
    let entries := idxs.map (fun i => (simEntry cfg envs req i).1)
    let warnings :=
      (if req.dispatchPlan.sum = req.totalAmount then []
        else ["Plan total does not match expected total"])
      ++ idxs.filterMap
          (fun i => if entryWithinLimits req i then none
            else some "Amount outside CCTP limits")
    (Except.ok
        ⟨req.totalAmount, (entries.map (fun e => e.fees)).sum,
          (entries.map (fun e => e.estimatedTime)).foldr max 0,
          entries, dispatchFeasible req, warnings⟩,
      (idxs.map (fun i => (simEntry cfg envs req i).2)).join)

/-- One reported dispatch outcome of executeDispatch. -/
structure DispatchOutcome where
  chain : CCTPChain
  amount : Nat
  recipient : String
  status : CCTPBridgeStatus
  transactionHash : Option String
  messageId : Option String
  attestationHash : Option String
  error : Option String
  estimatedTime : Option Nat
deriving DecidableEq

/-- A default outcome used only as the getD fallback in theorems. -/
def emptyOutcome : DispatchOutcome :=
  ⟨CCTPChain.ETH, 0, "", CCTPBridgeStatus.PENDING, none, none, none, none, none⟩

/-- IntegratedDispatchResponse restricted to the consumed fields. -/
structure IntegratedDispatchResponse where
  success : Bool
  totalAmount : Nat
  dispatches : List DispatchOutcome
  totalFees : Nat
  estimatedTime : Nat
  error : Option String
deriving DecidableEq

/-- The bridge request executeDispatch builds for plan entry i; the dry-run
flag is passed through. -/
def mkBridgeRequest (req : IntegratedDispatchRequest) (i : Nat) : CCTPBridgeRequest :=
  ⟨req.sourceChain, req.chains.getD i CCTPChain.ETH, req.dispatchPlan.getD i 0,
    req.recipients.getD i "", req.senderPrivateKey, req.dryRun⟩

/-- The result of running one plan entry through circleService.bridge inside
the execution loop: the reported outcome, the per-entry success flag, the fee
and time contributions, and the effect trace. -/
structure EntryResult where
  outcome : DispatchOutcome
  ok : Bool
  fee : Nat
  time : Nat
  effects : List Effect
deriving DecidableEq

/-- The body of the execution loop for plan entry i: run the bridge; on
success report its status and hashes and accumulate fees and time, otherwise
report FAILED with the bridge error. -/
def execEntry (cfg : CCTPServiceConfig) (envi : BridgeEnv)
    (req : IntegratedDispatchRequest) (i : Nat) : EntryResult :=
  let b := bridge cfg envi (mkBridgeRequest req i)
  if b.1.success then
    ⟨⟨req.chains.getD i CCTPChain.ETH, req.dispatchPlan.getD i 0,
        req.recipients.getD i "", b.1.status, b.1.transactionHash, b.1.messageId,
        b.1.attestationHash, none, b.1.estimatedTime⟩,
      true,
      (match b.1.fees with | some f => f.totalFee | none => 0),
      (match b.1.estimatedTime with | some t => t | none => 0),
      b.2⟩
  else
    ⟨⟨req.chains.getD i CCTPChain.ETH, req.dispatchPlan.getD i 0,
        req.recipients.getD i "", CCTPBridgeStatus.FAILED, none, none, none,
        b.1.error, none⟩,
      false, 0, 0, b.2⟩

/-- The execution loop of executeDispatch over the positive plan entries
(zero entries are skipped by the loop guard), with success the conjunction
of the per-entry successes. -/
def executeLoop (cfg : CCTPServiceConfig) (envs : Nat → BridgeEnv)
    (req : IntegratedDispatchRequest) :
    IntegratedDispatchResponse × List Effect :=
  let outs := (positiveIdxs req).map (fun i => execEntry cfg (envs i) req i)
  (⟨outs.all (fun o => o.ok), req.totalAmount, outs.map (fun o => o.outcome),
      (outs.map (fun o => o.fee)).sum, (outs.map (fun o => o.time)).foldr max 0,
      none⟩,
    (outs.map (fun o => o.effects)).join)

/-- The outcome reported for a simulation entry when the feasibility gate
rejects the batch. -/
def simFailedOutcome (d : SimDispatchEntry) : DispatchOutcome :=
  ⟨d.chain, d.amount, d.recipient, CCTPBridgeStatus.FAILED, none, none, none,
    some "Simulation failed", some d.estimatedTime⟩

/-- IntegratedXPayrService.executeDispatch: for a non-dry run, first run
simulateDispatch; a thrown validation error is converted by the outer catch
into an overall failure with an empty dispatches list, and an infeasible
simulation rejects the whole batch with every simulated entry marked FAILED
and nothing executed.  Otherwise (and always for dry runs) run the execution
loop over the positive plan entries. -/
def executeDispatch (cfg : CCTPServiceConfig) (envs : Nat → BridgeEnv)
    (req : IntegratedDispatchRequest) :
    IntegratedDispatchResponse × List Effect :=
  if req.dryRun = false then
    match simulateDispatch cfg envs req with
    | (Except.error m, effs) =>
      (⟨false, req.totalAmount, [], 0, 0, some m⟩, effs)
    | (Except.ok sim, effs) =>
      if sim.feasible = false then
        (⟨false, req.totalAmount, sim.dispatches.map simFailedOutcome,
            sim.totalFees, sim.estimatedTime,
            some ("Dispatch not feasible: " ++ String.intercalate ", " sim.warnings)⟩,
          effs)
      else
        let r := executeLoop cfg envs req
        (r.1, effs ++ r.2)
  else
    executeLoop cfg envs req

end Integrated
end XPayr

namespace XPayr
namespace Integrated

open XPayr.Circle

/-- A bridge environment in which every phase succeeds immediately. -/
def goodBridgeEnv : BridgeEnv :=
  ⟨some 1, Except.ok (), Except.ok ⟨"0xtx", "0xmsg", 100⟩,
    fun _ => PollResponse.complete "att"⟩

/-- The dry-run bridge effect trace: only the fee-data read of the quote. -/
lemma bridge_dryRun_effects (cfg : CCTPServiceConfig) (env : BridgeEnv)
    (r : CCTPBridgeRequest) (h : r.dryRun = true) :
    (bridge cfg env r).2 = [Effect.readFeeData r.fromChain] := by
  simp only [bridge, h, if_true]
  simp only [simulateBridge, getQuote, estimateGas]
  cases env.feeData <;> rfl

/-- In both branches of the execution loop body the effect trace is that of
the bridge run. -/
lemma execEntry_effects (cfg : CCTPServiceConfig) (envi : BridgeEnv)
    (req : IntegratedDispatchRequest) (i : Nat) :
    (execEntry cfg envi req i).effects = (bridge cfg envi (mkBridgeRequest req i)).2 := by
  simp only [execEntry]
  by_cases h : (bridge cfg envi (mkBridgeRequest req i)).1.success <;> simp [h]

/-- C7: dry-run has no side effects.  Every effect in the trace of
executeDispatch with dryRun = true is a read (no transaction submission):
the dry-run flag is passed through to every bridge call, which then only
quotes fees. -/
theorem C7_dry_run_no_side_effects (cfg : CCTPServiceConfig)
    (envs : Nat → BridgeEnv) (req : IntegratedDispatchRequest) (e : Effect)
    (hdry : req.dryRun = true)
    (he : e ∈ (executeDispatch cfg envs req).2) :
    e.isSubmit = false := by
  rw [executeDispatch, if_neg (by simp [hdry])] at he
  simp only [executeLoop, List.map_map, List.mem_join, List.mem_map] at he
  obtain ⟨l, ⟨i, hi, hl⟩, hel⟩ := he
  rw [← hl] at hel
  simp only [Function.comp_apply, execEntry_effects] at hel
  rw [bridge_dryRun_effects cfg (envs i) (mkBridgeRequest req i) hdry] at hel
  simp at hel
  rw [hel]
  rfl

theorem C7_dry_run_no_side_effects_witness :
    Effect.isSubmit (Effect.readFeeData CCTPChain.ETH) = false :=
  C7_dry_run_no_side_effects defaultServiceConfig (fun _ => goodBridgeEnv)
    ⟨[5], [CCTPChain.BASE], ["r1"], "key", CCTPChain.ETH, 5, true⟩
    (Effect.readFeeData CCTPChain.ETH) (by decide) (by decide)

end Integrated
end XPayr

namespace XPayr
namespace Integrated

open XPayr.Circle

/-- A two-chain request whose first plan entry is zero. -/
def zeroEntryRequest : IntegratedDispatchRequest :=
  ⟨[0, 5], [CCTPChain.ETH, CCTPChain.BASE], ["r1", "r2"], "key", CCTPChain.ETH, 5, false⟩

/-- C8 (counterexample): zero-amount plan entries are not reported.  For the
plan [0, 5] (two entries, one zero) the non-dry executeDispatch returns a
dispatches list of length 1 in which every reported amount is positive: the
zero entry is skipped by the loop guard, not marked completed, so the result
is not aligned with the plan. -/
theorem C8_zero_entries_counterexample :
    zeroEntryRequest.dispatchPlan.length = 2
    ∧ (executeDispatch defaultServiceConfig (fun _ => goodBridgeEnv)
        zeroEntryRequest).1.dispatches.length = 1
    ∧ (executeDispatch defaultServiceConfig (fun _ => goodBridgeEnv)
        zeroEntryRequest).1.dispatches.all (fun d => decide (0 < d.amount)) = true := by
  refine ⟨rfl, rfl, rfl⟩

/-- With valid lengths, simulateDispatch succeeds with the record built from
the positive plan entries. -/
lemma simulateDispatch_eq (cfg : CCTPServiceConfig) (envs : Nat → BridgeEnv)
    (req : IntegratedDispatchRequest) (hlen : lengthsOk req = true) :
    simulateDispatch cfg envs req
      = (Except.ok
          ⟨req.totalAmount,
            (((positiveIdxs req).map (fun i => (simEntry cfg envs req i).1)).map
              (fun e => e.fees)).sum,
            (((positiveIdxs req).map (fun i => (simEntry cfg envs req i).1)).map
              (fun e => e.estimatedTime)).foldr max 0,
            (positiveIdxs req).map (fun i => (simEntry cfg envs req i).1),
            dispatchFeasible req,
            (if req.dispatchPlan.sum = req.totalAmount then []
              else ["Plan total does not match expected total"])
              ++ (positiveIdxs req).filterMap
                  (fun i => if entryWithinLimits req i then none
                    else some "Amount outside CCTP limits")⟩,
        ((positiveIdxs req).map (fun i => (simEntry cfg envs req i).2)).join) := by
  rw [simulateDispatch, if_neg (by simp [hlen])]

/-- C8 (amended): for every request with valid lengths, the dispatches list
of executeDispatch reports exactly the plan entries with amount > 0, in plan
order and with their plan amounts; zero-amount entries produce no entry at
all in the result (they are skipped, not reported as completed no-ops). -/
theorem C8_zero_entries_amended (cfg : CCTPServiceConfig)
    (envs : Nat → BridgeEnv) (req : IntegratedDispatchRequest)
    (hlen : lengthsOk req = true) :
    (executeDispatch cfg envs req).1.dispatches.map (fun d => d.amount)
      = (positiveIdxs req).map (fun i => req.dispatchPlan.getD i 0) := by
  by_cases hdry : req.dryRun = false
  · rw [executeDispatch, if_pos hdry, simulateDispatch_eq cfg envs req hlen]
    by_cases hfeas : dispatchFeasible req = false
    · simp only [hfeas, if_true, List.map_map]
      apply List.map_congr_left
      intro i _
      rfl
    · have hfeas2 : dispatchFeasible req = true := by
        cases h : dispatchFeasible req
        · exact absurd h hfeas
        · rfl
      simp only [hfeas2]
      rw [if_neg (by simp)]
      simp only [executeLoop, List.map_map]
      apply List.map_congr_left
      intro i _
      simp only [Function.comp_apply, execEntry]
      by_cases h : (bridge cfg (envs i) (mkBridgeRequest req i)).1.success <;> simp [h]
  · rw [executeDispatch, if_neg hdry]
    simp only [executeLoop, List.map_map]
    apply List.map_congr_left
    intro i _
    simp only [Function.comp_apply, execEntry]
    by_cases h : (bridge cfg (envs i) (mkBridgeRequest req i)).1.success <;> simp [h]

theorem C8_zero_entries_amended_witness :
    (executeDispatch defaultServiceConfig (fun _ => goodBridgeEnv)
        zeroEntryRequest).1.dispatches.map (fun d => d.amount)
      = (positiveIdxs zeroEntryRequest).map
          (fun i => zeroEntryRequest.dispatchPlan.getD i 0) :=
  C8_zero_entries_amended defaultServiceConfig (fun _ => goodBridgeEnv)
    zeroEntryRequest (by decide)

end Integrated
end XPayr

namespace XPayr
namespace Integrated

open XPayr.Circle

/-- A bridge environment in which every phase fails. -/
def badBridgeEnv : BridgeEnv :=
  ⟨none, Except.error "approve reverted", Except.error "burn reverted",
    fun _ => PollResponse.failed⟩

/-- A two-chain request whose first entry exceeds the 1000000 USDC maximum
while the second is an ordinary transfer. -/
def overLimitRequest : IntegratedDispatchRequest :=
  ⟨[2000000000000, 5], [CCTPChain.ETH, CCTPChain.BASE], ["r1", "r2"], "key",
    CCTPChain.ETH, 2000000000005, false⟩

/-- C9 (counterexample): the batch is gated atomically by the feasibility
simulation.  With entry 0 over the amount limit and entry 1 perfectly
executable (its bridge alone succeeds, last conjunct), the non-dry
executeDispatch rejects the whole batch: overall failure, both entries
reported FAILED, and no transaction submitted for either entry — so a
failure affecting one entry does prevent the other from being executed. -/
theorem C9_batch_gate_counterexample :
    (executeDispatch defaultServiceConfig (fun _ => goodBridgeEnv)
        overLimitRequest).1.success = false
    ∧ (executeDispatch defaultServiceConfig (fun _ => goodBridgeEnv)
        overLimitRequest).1.dispatches.map (fun d => d.status)
        = [CCTPBridgeStatus.FAILED, CCTPBridgeStatus.FAILED]
    ∧ (executeDispatch defaultServiceConfig (fun _ => goodBridgeEnv)
        overLimitRequest).2.all (fun e => !e.isSubmit) = true
    ∧ (bridge defaultServiceConfig goodBridgeEnv
        (mkBridgeRequest overLimitRequest 1)).1.success = true := by
  refine ⟨rfl, rfl, rfl, rfl⟩

/-- getD through a map, for an in-range index. -/
lemma getD_map_of_lt {α β : Type} (l : List α) (f : α → β) (j : Nat)
    (d0 : α) (d : β) (h : j < l.length) :
    (l.map f).getD j d = f (l.getD j d0) := by
  rw [List.getD_eq_getElem _ _ (by simpa using h), List.getD_eq_getElem _ _ h,
    List.getElem_map]

/-- Once the feasibility gate is passed, the execution results are the
per-entry loop results and the overall success is their conjunction. -/
lemma executeDispatch_feasible_shape (cfg : CCTPServiceConfig)
    (envs : Nat → BridgeEnv) (req : IntegratedDispatchRequest)
    (hlen : lengthsOk req = true) (hfeas : dispatchFeasible req = true)
    (hdry : req.dryRun = false) :
    (executeDispatch cfg envs req).1.dispatches
        = (positiveIdxs req).map (fun i => (execEntry cfg (envs i) req i).outcome)
    ∧ (executeDispatch cfg envs req).1.success
        = (positiveIdxs req).all (fun i => (execEntry cfg (envs i) req i).ok) := by
  rw [executeDispatch, if_pos hdry, simulateDispatch_eq cfg envs req hlen]
  simp only [hfeas]
  rw [if_neg (by simp)]
  constructor
  · simp [executeLoop, List.map_map]
  · simp only [executeLoop]
    induction positiveIdxs req with
    | nil => rfl
    | cons i is ih => simp [List.all_cons, ih]

/-- C9 (amended): only the execution phase is independent per entry.  Under
the feasibility gate (valid lengths, feasible amounts, non-dry run), the j-th
reported outcome depends only on the j-th executed entry's own bridge
environment — two environments agreeing there yield the same j-th outcome —
and the overall success is the conjunction of the per-entry successes, a
derived summary rather than a gate.  (Before that phase, the feasibility
simulation does gate the batch atomically, as the counterexample shows.) -/
theorem C9_execution_phase_independence (cfg : CCTPServiceConfig)
    (envs envs2 : Nat → BridgeEnv) (req : IntegratedDispatchRequest) (j : Nat)
    (hlen : lengthsOk req = true) (hfeas : dispatchFeasible req = true)
    (hdry : req.dryRun = false) (hj : j < (positiveIdxs req).length)
    (hagree : envs ((positiveIdxs req).getD j 0) = envs2 ((positiveIdxs req).getD j 0)) :
    (executeDispatch cfg envs req).1.dispatches.getD j emptyOutcome
      = (executeDispatch cfg envs2 req).1.dispatches.getD j emptyOutcome
    ∧ (executeDispatch cfg envs req).1.success
        = (positiveIdxs req).all (fun i => (execEntry cfg (envs i) req i).ok) := by
  constructor
  · rw [(executeDispatch_feasible_shape cfg envs req hlen hfeas hdry).1,
      (executeDispatch_feasible_shape cfg envs2 req hlen hfeas hdry).1,
      getD_map_of_lt _ _ j 0 _ hj, getD_map_of_lt _ _ j 0 _ hj, hagree]
  · exact (executeDispatch_feasible_shape cfg envs req hlen hfeas hdry).2

theorem C9_execution_phase_independence_witness :
    (executeDispatch defaultServiceConfig (fun _ => goodBridgeEnv)
        zeroEntryRequest).1.dispatches.getD 0 emptyOutcome
      = (executeDispatch defaultServiceConfig
          (fun i => if i = 0 then badBridgeEnv else goodBridgeEnv)
          zeroEntryRequest).1.dispatches.getD 0 emptyOutcome
    ∧ (executeDispatch defaultServiceConfig (fun _ => goodBridgeEnv)
        zeroEntryRequest).1.success
        = (positiveIdxs zeroEntryRequest).all
            (fun i => (execEntry defaultServiceConfig goodBridgeEnv zeroEntryRequest i).ok) :=
  C9_execution_phase_independence defaultServiceConfig (fun _ => goodBridgeEnv)
    (fun i => if i = 0 then badBridgeEnv else goodBridgeEnv) zeroEntryRequest 0
    (by decide) (by decide) (by decide) (by decide) rfl

end Integrated
end XPayr
